import Mathlib

/-!
# Verification of the investor-defend client game services

Shallow embedding of the round/phase, allocation-ledger, voting and polling
logic of the game client:

* `src/src/js/_helpers/checkLogin.ts` — the `GameState` enum;
* `src/src/js/gameServices/baseGame.service.ts` — `BaseGameService`
  (spend ledger, control staging/removal, phase handling) and
  `BaseMultiplayerGameService` (poll-callback registry);
* `src/src/js/gameServices/cooperativeGame.service.ts` —
  `CooperativeGameService` (vote tallies, thresholds, toggling).

Money amounts are JS numbers in the source; they are modelled as exact
rationals (`ℚ`), matching the specification's stipulation that amounts are
fixed-point/decimal values.  DOM/rendering and AJAX effects are outside the
model; only the state mutations the handlers perform are embedded.
-/

namespace InvestorDefend

/-- Game phases, from the `GameState` enum in
`src/src/js/_helpers/checkLogin.ts`. -/
inductive GameState where
  | Purchasing
  | Placing
  | Simulating
  | Results
  | Ended
deriving DecidableEq, Repr

/-! ## Allocation ledger (`BaseGameService` spend tracking)

The ledger state of `BaseGameService`: `spendAvailable`, `spendAllocated`
and the staged-control list `controlsToImplement`. -/

/-- The spend-tracking fields of `BaseGameService`. -/
structure Ledger where
  spendAvailable : ℚ
  spendAllocated : ℚ
  controlsToImplement : List String
deriving DecidableEq, Repr

/-- `_handleClickImplementControl` (ledger mutation only): if
`spendAvailable - cost >= 0`, move `cost` from available to allocated and
push the control ID; otherwise the guard silently skips the mutation.
The source performs no already-staged check. -/
def handleClickImplementControl (l : Ledger) (cost : ℚ) (controlId : String) : Ledger :=
  if 0 ≤ l.spendAvailable - cost then
    { spendAvailable := l.spendAvailable - cost
      spendAllocated := l.spendAllocated + cost
      controlsToImplement := l.controlsToImplement ++ [controlId] }
  else l

/-- `_handleClickRemoveControl` (ledger mutation only): unconditionally move
`cost` back from allocated to available and filter the control ID out of the
staged list. -/
def handleClickRemoveControl (l : Ledger) (cost : ℚ) (controlId : String) : Ledger :=
  { spendAvailable := l.spendAvailable + cost
    spendAllocated := l.spendAllocated - cost
    controlsToImplement := l.controlsToImplement.filter (fun id => id ≠ controlId) }

/-- One stage (`_handleClickImplementControl`) or unstage
(`_handleClickRemoveControl`) call within a round. -/
inductive LedgerOp where
  | stage (cost : ℚ) (controlId : String)
  | unstage (cost : ℚ) (controlId : String)

/-- Apply a single stage/unstage handler call to the ledger. -/
def applyLedgerOp (l : Ledger) : LedgerOp → Ledger
  | .stage cost controlId => handleClickImplementControl l cost controlId
  | .unstage cost controlId => handleClickRemoveControl l cost controlId

/-- Apply a sequence of stage/unstage handler calls, first one first. -/
def applyLedgerOps (l : Ledger) (ops : List LedgerOp) : Ledger :=
  ops.foldl applyLedgerOp l

/-- The Purchasing-entry ledger state set by `_renderGameState`
(`spendAvailable = moneyPerTurn`, `spendAllocated = 0`, nothing staged). -/
def purchasingEntryLedger (moneyPerTurn : ℚ) : Ledger :=
  { spendAvailable := moneyPerTurn, spendAllocated := 0, controlsToImplement := [] }

/-- `_handleClickSimulateTurn` of `BaseGameService`, as the game phase
presented after the call: with a non-empty staged list the state is set to
`Placing`; with an empty staged list, a confirmation prompt either aborts
(state unchanged) or `_simulateTurn` runs, which renders `Simulating`. -/
def handleClickSimulateTurn (controlsToImplement : List String) (confirmContinue : Bool)
    (state : GameState) : GameState :=
  if controlsToImplement.length = 0 then
    if ¬confirmContinue then state else GameState.Simulating
  else GameState.Placing

/-! ## Theorems: allocation ledger -/

lemma applyLedgerOp_sum (l : Ledger) (op : LedgerOp) :
    (applyLedgerOp l op).spendAvailable + (applyLedgerOp l op).spendAllocated =
      l.spendAvailable + l.spendAllocated := by
  cases op with
  | stage cost controlId =>
    simp only [applyLedgerOp, handleClickImplementControl]
    split <;> simp
  | unstage cost controlId =>
    simp only [applyLedgerOp, handleClickRemoveControl]
    ring

lemma applyLedgerOps_sum (l : Ledger) (ops : List LedgerOp) :
    (applyLedgerOps l ops).spendAvailable + (applyLedgerOps l ops).spendAllocated =
      l.spendAvailable + l.spendAllocated := by
  induction ops generalizing l with
  | nil => rfl
  | cons op ops ih =>
    simp only [applyLedgerOps, List.foldl_cons] at *
    rw [ih (applyLedgerOp l op), applyLedgerOp_sum]

/-- **C1.** For every sequence of stage (`_handleClickImplementControl`) and
unstage (`_handleClickRemoveControl`) calls within a round, the ledger
invariant `spendAvailable + spendAllocated = moneyPerTurn` holds after every
call, starting from the Purchasing-entry state `spendAvailable = moneyPerTurn`,
`spendAllocated = 0`.  (Quantifying over all call sequences covers the state
after every call, since every prefix of a call sequence is itself one.) -/
theorem ledger_invariant_available_add_allocated (moneyPerTurn : ℚ) (ops : List LedgerOp) :
    (applyLedgerOps (purchasingEntryLedger moneyPerTurn) ops).spendAvailable +
      (applyLedgerOps (purchasingEntryLedger moneyPerTurn) ops).spendAllocated = moneyPerTurn := by
  rw [applyLedgerOps_sum]
  simp [purchasingEntryLedger]

/-- **C2.** Confirming end of round from Purchasing moves the phase to
`Placing` iff the staged-control list is non-empty; when it is empty the
phase goes directly to `Simulating` (subject to the user's confirmation),
never through `Placing`. -/
theorem simulateTurn_placing_iff_staged (staged : List String) (confirmContinue : Bool) :
    (handleClickSimulateTurn staged confirmContinue GameState.Purchasing = GameState.Placing ↔
      staged ≠ []) ∧
    (staged = [] →
      handleClickSimulateTurn staged confirmContinue GameState.Purchasing =
        (if confirmContinue then GameState.Simulating else GameState.Purchasing)) := by
  constructor
  · constructor
    · intro h hstaged
      subst hstaged
      simp only [handleClickSimulateTurn, List.length_nil, if_pos rfl] at h
      cases confirmContinue <;> simp_all
    · intro hstaged
      have : staged.length ≠ 0 := by simpa using hstaged
      simp [handleClickSimulateTurn, this]
  · intro hstaged
    subst hstaged
    cases confirmContinue <;> simp [handleClickSimulateTurn]

/-- Witness for **C2**: with no staged controls and a confirmed prompt the
phase becomes `Simulating` (not `Placing`). -/
theorem simulateTurn_placing_iff_staged_witness :
    handleClickSimulateTurn [] true GameState.Purchasing = GameState.Simulating := by
  simpa using (simulateTurn_placing_iff_staged [] true).2 rfl

/-- **C4.** Staging a control whose cost exceeds the available budget is
rejected by the guard and leaves the ledger entirely unchanged:
`spendAvailable`, `spendAllocated` and the staged list keep their prior
values.  (The rejection in the source is silent: the guard skips the
mutation; no separate error object is raised.) -/
theorem stage_insufficient_funds_unchanged (l : Ledger) (cost : ℚ) (controlId : String)
    (h : l.spendAvailable < cost) :
    handleClickImplementControl l cost controlId = l := by
  have : ¬(0 ≤ l.spendAvailable - cost) := by linarith
  simp [handleClickImplementControl, this]

/-- Witness for **C4**: with `available = 600, allocated = 400`, staging a
control costing 700 leaves the ledger unchanged. -/
theorem stage_insufficient_funds_unchanged_witness :
    handleClickImplementControl
        { spendAvailable := 600, spendAllocated := 400, controlsToImplement := ["c1"] }
        700 "c2" =
      { spendAvailable := 600, spendAllocated := 400, controlsToImplement := ["c1"] } :=
  stage_insufficient_funds_unchanged _ 700 "c2" (by norm_num)

/-- Counterexample for **C5**: staging a control that is already staged does
not fail — `_handleClickImplementControl` has no already-staged check, so the
same identifier is pushed twice and its cost allocated twice. -/
theorem stage_duplicate_counterexample :
    (handleClickImplementControl
        (handleClickImplementControl (purchasingEntryLedger 1000) 400 "c1")
        400 "c1").controlsToImplement = ["c1", "c1"] ∧
    (handleClickImplementControl
        (handleClickImplementControl (purchasingEntryLedger 1000) 400 "c1")
        400 "c1").spendAllocated = 800 := by
  constructor <;>
    simp [handleClickImplementControl, purchasingEntryLedger] <;> norm_num

/-- **C5 (amended).** The stage handler performs no duplicate check: staging
a control whose identifier is already in the staged list, with sufficient
remaining funds, pushes a second copy of the identifier (its multiplicity
increases by one) and allocates its cost again. -/
theorem stage_duplicate_allowed (l : Ledger) (cost : ℚ) (controlId : String)
    (hmem : controlId ∈ l.controlsToImplement)
    (hfunds : 0 ≤ l.spendAvailable - cost) :
    (handleClickImplementControl l cost controlId).controlsToImplement.count controlId =
      l.controlsToImplement.count controlId + 1 ∧
    (handleClickImplementControl l cost controlId).spendAllocated =
      l.spendAllocated + cost := by
  simp [handleClickImplementControl, hfunds, List.count_append]

/-- Witness for **C5 (amended)**: restaging `"c1"` at cost 400 from
`⟨600, 400, ["c1"]⟩` doubles its multiplicity. -/
theorem stage_duplicate_allowed_witness :
    (handleClickImplementControl
        { spendAvailable := 600, spendAllocated := 400, controlsToImplement := ["c1"] }
        400 "c1").controlsToImplement.count "c1" = 2 := by
  have h := stage_duplicate_allowed
    { spendAvailable := 600, spendAllocated := 400, controlsToImplement := ["c1"] }
    400 "c1" (by simp) (by norm_num)
  simpa using h.1

/-- **C6.** For every ledger state and every stageable control (cost within
the available budget, identifier not already staged), staging it and then
immediately unstaging it restores the exact prior ledger — in particular the
exact prior `spendAvailable` and `spendAllocated`. -/
theorem stage_unstage_roundtrip (l : Ledger) (cost : ℚ) (controlId : String)
    (hfunds : cost ≤ l.spendAvailable)
    (hmem : controlId ∉ l.controlsToImplement) :
    handleClickRemoveControl (handleClickImplementControl l cost controlId) cost controlId = l := by
  have hguard : 0 ≤ l.spendAvailable - cost := by linarith
  have hfilter : l.controlsToImplement.filter (fun id => id ≠ controlId) =
      l.controlsToImplement := by
    rw [List.filter_eq_self]
    intro a ha
    simp only [ne_eq, decide_eq_true_eq]
    intro heq
    exact hmem (heq ▸ ha)
  obtain ⟨avail, alloc, staged⟩ := l
  simp only [handleClickImplementControl, handleClickRemoveControl] at *
  rw [if_pos hguard]
  simp only [Ledger.mk.injEq, List.filter_append]
  refine ⟨by ring, by ring, ?_⟩
  simp [hfilter]
  exact fun a ha h => hmem (h ▸ ha)

/-- Witness for **C6**: staging then unstaging a 400-cost control restores
`⟨1000, 0, []⟩` exactly. -/
theorem stage_unstage_roundtrip_witness :
    handleClickRemoveControl
        (handleClickImplementControl (purchasingEntryLedger 1000) 400 "c1") 400 "c1" =
      purchasingEntryLedger 1000 :=
  stage_unstage_roundtrip (purchasingEntryLedger 1000) 400 "c1"
    (by norm_num [purchasingEntryLedger]) (by simp [purchasingEntryLedger])

/-! ## Cooperative voting (`CooperativeGameService`) -/

/-- A vote record (the `Votes` type from `src/src/js/types/typings.d.ts`):
an action/button element ID together with the IDs of the users who have
voted for it. -/
structure Votes where
  id : String
  votes : List String
deriving DecidableEq, Repr

/-- `_getVoteThreshold`: `Math.ceil(this.organisation.members.length / 2)`. -/
def getVoteThreshold (memberCount : ℕ) : ℕ :=
  Nat.ceil ((memberCount : ℚ) / 2)

/-- `_getVoteTally`: `this._votes[voteIndex].votes.length`.  The `none`
result models the JS crash when `voteIndex` is out of bounds
(`undefined.votes` throws a `TypeError`). -/
def getVoteTally (vs : List Votes) (voteIndex : ℕ) : Option ℕ :=
  (vs[voteIndex]?).map (fun v => v.votes.length)

/-- The threshold comparison made by the cooperative click handlers:
`this._getVoteTally(voteIndex) >= this._getVoteThreshold()`. -/
def voteThresholdReached (vs : List Votes) (voteIndex threshold : ℕ) : Bool :=
  match getVoteTally vs voteIndex with
  | some tally => decide (threshold ≤ tally)
  | none => false

/-- `_toggleVote`: look up the record for `voteId`; if absent, append a new
record with the caller as sole voter; if present and its tally has not
reached the threshold, remove the caller if already recorded (deleting the
record when its voter list becomes empty) or record them otherwise; if the
tally has reached the threshold, change nothing.  The returned index is the
record's index at lookup time, as in the source. -/
def toggleVote (vs : List Votes) (userId voteId : String) (threshold : ℕ) :
    List Votes × ℕ :=
  match vs.findIdx? (fun v => v.id == voteId) with
  | none => (vs ++ [{ id := voteId, votes := [userId] }], vs.length)
  | some voteIndex =>
    match vs[voteIndex]? with
    | none => (vs, voteIndex) -- unreachable: `findIdx?` returns an in-bounds index
    | some v =>
      if ¬threshold ≤ v.votes.length then
        if userId ∈ v.votes then
          if (v.votes.filter (fun voterId => voterId ≠ userId)).length = 0 then
            (vs.eraseIdx voteIndex, voteIndex)
          else
            (vs.set voteIndex
              { id := v.id, votes := v.votes.filter (fun voterId => voterId ≠ userId) },
              voteIndex)
        else (vs.set voteIndex { id := v.id, votes := v.votes ++ [userId] }, voteIndex)
      else (vs, voteIndex)

/-! ## Theorems: cooperative voting -/

lemma getVoteThreshold_eq_succ_div_two (n : ℕ) : getVoteThreshold n = (n + 1) / 2 := by
  unfold getVoteThreshold
  rcases Nat.eq_zero_or_pos n with hn | hn
  · subst hn; simp
  · set m := (n + 1) / 2 with hm
    have h2 : m ≠ 0 := by omega
    have h1 : 1 ≤ m := by omega
    rw [Nat.ceil_eq_iff h2]
    constructor
    · rw [lt_div_iff₀ (by norm_num : (0 : ℚ) < 2), Nat.cast_sub h1]
      have hlt : 2 * m < n + 2 := by omega
      have : 2 * (m : ℚ) < (n : ℚ) + 2 := by exact_mod_cast hlt
      push_cast
      linarith
    · rw [div_le_iff₀ (by norm_num : (0 : ℚ) < 2)]
      have hge : n ≤ 2 * m := by omega
      have : (n : ℚ) ≤ 2 * (m : ℚ) := by exact_mod_cast hge
      linarith

lemma toggleVote_found_id (vs : List Votes) (voteId : String) (i : ℕ) (v : Votes)
    (hfind : vs.findIdx? (fun w => w.id == voteId) = some i)
    (hget : vs[i]? = some v) : v.id = voteId := by
  rw [List.findIdx?_eq_some_iff_getElem] at hfind
  obtain ⟨hlen, hp, -⟩ := hfind
  rw [List.getElem?_eq_getElem hlen] at hget
  have hv : vs[i] = v := Option.some.inj hget
  simp only [hv, beq_iff_eq] at hp
  exact hp

lemma toggleVote_eq_of_found (vs : List Votes) (userId voteId : String) (threshold i : ℕ)
    (v : Votes)
    (hfind : vs.findIdx? (fun w => w.id == voteId) = some i)
    (hget : vs[i]? = some v) :
    toggleVote vs userId voteId threshold =
      if ¬threshold ≤ v.votes.length then
        if userId ∈ v.votes then
          if (v.votes.filter (fun voterId => voterId ≠ userId)).length = 0 then
            (vs.eraseIdx i, i)
          else
            (vs.set i { id := v.id, votes := v.votes.filter (fun voterId => voterId ≠ userId) },
              i)
        else (vs.set i { id := v.id, votes := v.votes ++ [userId] }, i)
      else (vs, i) := by
  unfold toggleVote
  rw [hfind]
  dsimp only
  rw [hget]

/-- **C3.** Once a vote record's tally has reached the threshold, a
subsequent `_toggleVote` by a voter already recorded for that action changes
nothing — in particular it does not remove them (a passed vote is locked) —
while below the threshold toggling again revokes the voter: afterwards no
record for that action contains them. -/
theorem toggleVote_passed_locked (vs : List Votes) (u voteId : String) (t i : ℕ) (v : Votes)
    (hfind : vs.findIdx? (fun w => w.id == voteId) = some i)
    (hget : vs[i]? = some v)
    (hu : u ∈ v.votes)
    (hnodup : (vs.map Votes.id).Nodup) :
    (t ≤ v.votes.length → toggleVote vs u voteId t = (vs, i)) ∧
    (v.votes.length < t →
      ∀ w ∈ (toggleVote vs u voteId t).1, w.id = voteId → u ∉ w.votes) := by
  have hvid : v.id = voteId := toggleVote_found_id vs voteId i v hfind hget
  have hlen : i < vs.length := (List.findIdx?_eq_some_iff_getElem.mp hfind).1
  have hvi : vs[i] = v := by
    rw [List.getElem?_eq_getElem hlen] at hget
    exact Option.some.inj hget
  rw [toggleVote_eq_of_found vs u voteId t i v hfind hget]
  constructor
  · intro hthresh
    rw [if_neg (not_not_intro hthresh)]
  · intro hthresh w hw hwid
    rw [if_pos (Nat.not_le.mpr hthresh), if_pos hu] at hw
    by_cases hempty : (v.votes.filter (fun voterId => voterId ≠ u)).length = 0
    · rw [if_pos hempty] at hw
      simp only at hw
      rw [List.mem_eraseIdx_iff_getElem] at hw
      obtain ⟨j, hjlen, hji, hjw⟩ := hw
      have hj2 : j < (vs.map Votes.id).length := by simpa using hjlen
      have hi2 : i < (vs.map Votes.id).length := by simpa using hlen
      have heq : (vs.map Votes.id)[j] = (vs.map Votes.id)[i] := by
        rw [List.getElem_map, List.getElem_map, hjw, hwid, hvi, hvid]
      exact absurd (hnodup.getElem_inj_iff.mp heq) hji
    · rw [if_neg hempty] at hw
      simp only at hw
      rw [List.mem_iff_getElem] at hw
      obtain ⟨j, hjlen, hjw⟩ := hw
      rw [List.length_set] at hjlen
      by_cases hij : j = i
      · subst hij
        rw [List.getElem_set_self] at hjw
        intro humem
        rw [← hjw] at humem
        simp at humem
      · rw [List.getElem_set_ne (Ne.symm hij)] at hjw
        have hj2 : j < (vs.map Votes.id).length := by simpa using hjlen
        have hi2 : i < (vs.map Votes.id).length := by simpa using hlen
        have heq : (vs.map Votes.id)[j] = (vs.map Votes.id)[i] := by
          rw [List.getElem_map, List.getElem_map, hjw, hwid, hvi, hvid]
        exact absurd (hnodup.getElem_inj_iff.mp heq) hij

/-- Witness for **C3**: with threshold 3 and a record already holding three
voters, a toggle by recorded voter `"a"` leaves the tally untouched. -/
theorem toggleVote_passed_locked_witness :
    toggleVote [Votes.mk "simulate-turn" ["a", "b", "c"]] "a" "simulate-turn" 3 =
      ([Votes.mk "simulate-turn" ["a", "b", "c"]], 0) :=
  (toggleVote_passed_locked [Votes.mk "simulate-turn" ["a", "b", "c"]] "a" "simulate-turn" 3 0
    (Votes.mk "simulate-turn" ["a", "b", "c"]) (by rfl) (by rfl) (by simp) (by simp)).1
    (by simp)

/-- **C7.** The Majority threshold is `ceil(memberCount / 2)` — equal to
`(memberCount + 1) / 2` in integer arithmetic, hence 3 for 5 members — and
the handlers' check passes exactly when the record's tally reaches it. -/
theorem majority_threshold (n : ℕ) (h : 1 ≤ n) :
    getVoteThreshold n = (n + 1) / 2 ∧
    getVoteThreshold 5 = 3 ∧
    (∀ (vs : List Votes) (i : ℕ) (v : Votes), vs[i]? = some v →
      (voteThresholdReached vs i (getVoteThreshold n) = true ↔
        (n + 1) / 2 ≤ v.votes.length)) := by
  refine ⟨getVoteThreshold_eq_succ_div_two n, ?_, ?_⟩
  · rw [getVoteThreshold_eq_succ_div_two]
  · intro vs i v hv
    simp [voteThresholdReached, getVoteTally, hv, getVoteThreshold_eq_succ_div_two]

/-- Witness for **C7**: with 5 organisation members the threshold is 3, and
a 3-voter record passes the handlers' check. -/
theorem majority_threshold_witness :
    getVoteThreshold 5 = 3 ∧
    voteThresholdReached [Votes.mk "simulate-turn" ["a", "b", "c"]] 0 (getVoteThreshold 5) =
      true := by
  have h := majority_threshold 5 (by norm_num)
  refine ⟨h.2.1, ?_⟩
  rw [h.2.2 [Votes.mk "simulate-turn" ["a", "b", "c"]] 0 (Votes.mk "simulate-turn" ["a", "b", "c"]) rfl]
  simp

/-- **C10** (failing evaluation): in a 3-member cooperative game
(threshold 2), a voter who is the sole voter for `"simulate-turn"` toggles
again; `_toggleVote` revokes them, deletes the now-empty record and still
returns index 0, after which `_getVoteTally(0)` reads `_votes[0].votes`
on the empty vote list — a missing element (`undefined.votes` throws). -/
theorem toggleVote_stale_index_crash :
    getVoteThreshold 3 = 2 ∧
    toggleVote [Votes.mk "simulate-turn" ["u1"]] "u1" "simulate-turn" (getVoteThreshold 3) =
      ([], 0) ∧
    getVoteTally [] 0 = none := by
  have h3 : getVoteThreshold 3 = 2 := by rw [getVoteThreshold_eq_succ_div_two]
  refine ⟨h3, ?_, rfl⟩
  rw [h3]
  rfl

/-! ## Poll-callback registry (`BaseMultiplayerGameService`) -/

/-- A pollable callback entry (the `Poll` type from
`src/src/js/types/typings.d.ts`): a callback and its captured arguments,
abstracted over their types.  The `Polls` record keyed by name is modelled
as an association list with unique keys. -/
structure Poll (Cb Arg : Type) where
  callback : Cb
  args : List Arg
deriving DecidableEq, Repr

/-- `_addPoll`: `if (!this._polls[key]) this._polls[key] = { callback, args }` —
an entry is created only when the key is absent; an existing entry is kept. -/
def addPoll {Cb Arg : Type} (polls : List (String × Poll Cb Arg)) (key : String)
    (callback : Cb) (args : List Arg) : List (String × Poll Cb Arg) :=
  match polls.lookup key with
  | none => polls ++ [(key, { callback := callback, args := args })]
  | some _ => polls

/-- `_removePoll`: `if (this._polls[key]) delete this._polls[key]` — delete
the entry when present, do nothing when absent. -/
def removePoll {Cb Arg : Type} (polls : List (String × Poll Cb Arg)) (key : String) :
    List (String × Poll Cb Arg) :=
  match polls.lookup key with
  | some _ => polls.eraseP (fun p => p.1 == key)
  | none => polls

/-! ## Theorems: poll-callback registry -/

/-- Counterexample for **C8**: registering a callback under a name that
already has one does *not* replace it — `_addPoll` is a no-op on an existing
key, so the old callback and arguments survive. -/
theorem addPoll_no_replace_counterexample :
    (addPoll [("modal", (Poll.mk 1 [10] : Poll ℕ ℕ))] "modal" 2 [20]).lookup "modal" =
      some (Poll.mk 1 [10]) ∧
    (addPoll [("modal", (Poll.mk 1 [10] : Poll ℕ ℕ))] "modal" 2 [20]).lookup "modal" ≠
      some (Poll.mk 2 [20]) := by
  constructor <;> decide

/-- **C8 (amended).** Registering a poll callback under a name that already
has a registered callback is a no-op: the existing callback and arguments
are kept and the new ones discarded (`_updatePoll`, not `_addPoll`, replaces
entries).  Removing a name that is not registered is a no-op, not an
error. -/
theorem addPoll_existing_noop {Cb Arg : Type} (polls : List (String × Poll Cb Arg))
    (key : String) (callback : Cb) (args : List Arg) :
    (∀ p, polls.lookup key = some p → addPoll polls key callback args = polls) ∧
    (polls.lookup key = none → removePoll polls key = polls) := by
  constructor
  · intro p hp
    unfold addPoll
    rw [hp]
  · intro hp
    unfold removePoll
    rw [hp]

/-- Witness for **C8 (amended)**: re-registering key `"modal"` keeps the old
entry, and removing from an empty registry does nothing. -/
theorem addPoll_existing_noop_witness :
    addPoll [("modal", (Poll.mk 1 [10] : Poll ℕ ℕ))] "modal" 2 [20] =
      [("modal", Poll.mk 1 [10])] ∧
    removePoll ([] : List (String × Poll ℕ ℕ)) "modal" = [] :=
  ⟨(addPoll_existing_noop [("modal", (Poll.mk 1 [10] : Poll ℕ ℕ))] "modal" 2 [20]).1
      (Poll.mk 1 [10]) rfl,
    (addPoll_existing_noop ([] : List (String × Poll ℕ ℕ)) "modal" 2 [20]).2 rfl⟩

/-! ## Control placement (`_handleClickAssetIcon`) -/

/-- A control as relevant to placement: its ID and the slug of the asset it
must be placed on. -/
structure Control where
  id : String
  asset : String
deriving DecidableEq, Repr

/-- The game-service state touched by `_handleClickAssetIcon`. -/
structure PlacingState where
  state : GameState
  placingControl : Option Control
  controlsToImplement : List String
  spendAvailable : ℚ
  spendAllocated : ℚ
deriving DecidableEq, Repr

/-- `_handleClickAssetIcon`: in `Placing`, compare the in-progress control's
required asset against the clicked asset's slug.  On a match the control is
removed from the staged list, implemented (server call), and
`_placingControl` cleared; `_placeControls` then re-prompts for the
remaining controls (state stays `Placing`) or, when none remain, runs
`_simulateTurn` (rendering `Simulating`).  On a mismatch only an alert is
shown.  In `Purchasing` the click opens the asset-controls modal; other
states do nothing. -/
def handleClickAssetIcon (s : PlacingState) (clickedAssetSlug : String) : PlacingState :=
  match s.state with
  | GameState.Placing =>
    match s.placingControl with
    | some c =>
      if c.asset = clickedAssetSlug then
        let staged := s.controlsToImplement.filter (fun controlId => c.id ≠ controlId)
        { s with
          controlsToImplement := staged
          placingControl := none
          state := if staged.length = 0 then GameState.Simulating else s.state }
      else s
    | none => s
  | _ => s

/-! ## Theorems: control placement -/

/-- Counterexample for **C9**: a wrong-target click in `Placing` does not
clear the in-progress placement candidate — `_placingControl` keeps its
value (the whole state is unchanged within the model). -/
theorem wrong_target_counterexample :
    handleClickAssetIcon
        { state := GameState.Placing, placingControl := some (Control.mk "c1" "server"),
          controlsToImplement := ["c1"], spendAvailable := 600, spendAllocated := 400 }
        "laptop" =
      { state := GameState.Placing, placingControl := some (Control.mk "c1" "server"),
        controlsToImplement := ["c1"], spendAvailable := 600, spendAllocated := 400 } ∧
    (handleClickAssetIcon
        { state := GameState.Placing, placingControl := some (Control.mk "c1" "server"),
          controlsToImplement := ["c1"], spendAvailable := 600, spendAllocated := 400 }
        "laptop").placingControl ≠ none := by
  constructor <;> decide

/-- **C9 (amended).** In `Placing`, binding the in-progress control to the
wrong target consumes no state change at all: the phase, the staged set, the
ledger figures *and* the in-progress placement candidate `_placingControl`
are all unchanged (the candidate is not cleared); the player is merely
re-prompted by an alert. -/
theorem wrong_target_no_state_change (s : PlacingState) (clickedAssetSlug : String)
    (c : Control)
    (hstate : s.state = GameState.Placing)
    (hplacing : s.placingControl = some c)
    (hwrong : c.asset ≠ clickedAssetSlug) :
    handleClickAssetIcon s clickedAssetSlug = s := by
  unfold handleClickAssetIcon
  rw [hstate, hplacing]
  simp [hwrong]

/-- Witness for **C9 (amended)**: clicking asset `"laptop"` while placing a
control bound to `"server"` leaves the state untouched. -/
theorem wrong_target_no_state_change_witness :
    handleClickAssetIcon
        { state := GameState.Placing, placingControl := some (Control.mk "c1" "server"),
          controlsToImplement := ["c1"], spendAvailable := 600, spendAllocated := 400 }
        "laptop" =
      { state := GameState.Placing, placingControl := some (Control.mk "c1" "server"),
        controlsToImplement := ["c1"], spendAvailable := 600, spendAllocated := 400 } :=
  wrong_target_no_state_change _ "laptop" (Control.mk "c1" "server") rfl rfl (by decide)

end InvestorDefend
